import Mathlib

/-!
Verification of `scheduler/runner.py` (reddit-scrapp).

The file shallow-embeds the scheduler's core: the batch splitter
(`split_batch_by_token_limit`), the retrying submitter
(`submit_with_backoff`), the deferred store (`save_failed_batch`), the
two result-ingestion paths, and the per-stage driver loop of
`run_daily_pipeline`.  Collaborators reached over I/O (the batch API,
the database, the cost tracker) are modelled as oracles/events: each
attempt's combined outcome of `generate_file_fn`, `submit_batch_job`
and `poll_batch_status` is one `AttemptOutcome`, and driver-level calls
become entries of an event trace.
-/

/-- A work item of a batch payload.  In the source an item is a JSON
dict; the splitter reads only `item.get("meta", {}).get("estimated_tokens", 300)`,
so the embedding keeps the item's identity (`custom_id`) and that one
field, `none` standing for an absent `meta.estimated_tokens`. -/
structure WorkItem where
  custom_id : String
  meta_estimated_tokens : Option Nat
deriving DecidableEq, Repr

/-- `item.get("meta", {}).get("estimated_tokens", 300)`. -/
def tokensOf (it : WorkItem) : Nat := it.meta_estimated_tokens.getD 300

/-- Sum of token estimates of a sub-batch. -/
def sumTokens (b : List WorkItem) : Nat := (b.map tokensOf).sum

/-- The loop of `split_batch_by_token_limit` (runner.py lines 83-94):
state is the remaining payload, the current batch and its running token
sum.  When `current_tokens + tokens > token_limit` the current batch is
closed (even if empty) and the item starts a new one; at the end the
current batch is appended only if non-empty. -/
def splitGo (token_limit : Nat) : List WorkItem → List WorkItem → Nat → List (List WorkItem)
  | [], current, _ => if current = [] then [] else [current]
  | item :: rest, current, current_tokens =>
    let tokens := tokensOf item
    if current_tokens + tokens > token_limit then
      current :: splitGo token_limit rest [item] tokens
    else
      splitGo token_limit rest (current ++ [item]) (current_tokens + tokens)

/-- `split_batch_by_token_limit(payload, model, token_limit)` (runner.py
lines 78-96).  The `model` argument is unused in the source body and is
dropped here. -/
def split_batch_by_token_limit (payload : List WorkItem) (token_limit : Nat) : List (List WorkItem) :=
  splitGo token_limit payload [] 0

theorem splitGo_join (token_limit : Nat) :
    ∀ (l current : List WorkItem) (ct : Nat),
      (splitGo token_limit l current ct).flatten = current ++ l := by
  intro l
  induction l with
  | nil =>
    intro current ct
    by_cases h : current = [] <;> simp [splitGo, h]
  | cons item rest ih =>
    intro current ct
    by_cases h : ct + tokensOf item > token_limit
    · simp only [splitGo, if_pos h, List.flatten_cons, ih]
      simp
    · simp only [splitGo, if_neg h, ih]
      simp

/-- A sub-batch is within budget, or is a lone oversized item. -/
def goodBatch (token_limit : Nat) (b : List WorkItem) : Prop :=
  sumTokens b ≤ token_limit ∨ ∃ x, b = [x] ∧ tokensOf x > token_limit

theorem splitGo_good (token_limit : Nat) :
    ∀ (l current : List WorkItem) (ct : Nat),
      sumTokens current = ct → goodBatch token_limit current →
      ∀ b ∈ splitGo token_limit l current ct, goodBatch token_limit b := by
  intro l
  induction l with
  | nil =>
    intro current ct hsum hgood b hb
    by_cases h : current = []
    · simp [splitGo, h] at hb
    · simp only [splitGo, if_neg h, List.mem_singleton] at hb
      exact hb ▸ hgood
  | cons item rest ih =>
    intro current ct hsum hgood b hb
    by_cases h : ct + tokensOf item > token_limit
    · simp only [splitGo, if_pos h, List.mem_cons] at hb
      rcases hb with rfl | hb
      · exact hgood
      · refine ih [item] (tokensOf item) (by simp [sumTokens]) ?_ b hb
        by_cases hover : tokensOf item > token_limit
        · exact Or.inr ⟨item, rfl, hover⟩
        · exact Or.inl (by simp [sumTokens]; omega)
    · simp only [splitGo, if_neg h] at hb
      refine ih (current ++ [item]) (ct + tokensOf item)
        (by simp [sumTokens] at hsum ⊢; omega) (Or.inl ?_) b hb
      have : sumTokens (current ++ [item]) = ct + tokensOf item := by
        simp [sumTokens] at hsum ⊢; omega
      omega

theorem splitGo_ne_nil (token_limit : Nat) :
    ∀ (l current : List WorkItem) (ct : Nat), current ≠ [] →
      ∀ b ∈ splitGo token_limit l current ct, b ≠ [] := by
  intro l
  induction l with
  | nil =>
    intro current ct hcur b hb
    simp only [splitGo, if_neg hcur, List.mem_singleton] at hb
    exact hb ▸ hcur
  | cons item rest ih =>
    intro current ct hcur b hb
    by_cases h : ct + tokensOf item > token_limit
    · simp only [splitGo, if_pos h, List.mem_cons] at hb
      rcases hb with rfl | hb
      · exact hcur
      · exact ih [item] (tokensOf item) (by simp) b hb
    · simp only [splitGo, if_neg h] at hb
      exact ih (current ++ [item]) (ct + tokensOf item) (by simp) b hb

/-- **C6.** For every input list of work items and every token limit,
concatenating the sub-batches returned by `split_batch_by_token_limit`,
in order, yields exactly the input list — no item lost, none
duplicated, none reordered — and the empty input yields the empty
output. -/
theorem C6_split_partition_complete (payload : List WorkItem) (token_limit : Nat) :
    (split_batch_by_token_limit payload token_limit).flatten = payload ∧
    split_batch_by_token_limit [] token_limit = [] := by
  constructor
  · simpa using splitGo_join token_limit payload [] 0
  · rfl

/-- **C7.** Every sub-batch returned by `split_batch_by_token_limit`
either has token-estimate sum (absent estimates counting as 300) at
most the limit, or is a singleton whose item's own estimate exceeds the
limit; consequently an item whose estimate exceeds the limit is always
placed alone, never merged with other items (and by C6 it is never
dropped). -/
theorem C7_split_token_bound (payload : List WorkItem) (token_limit : Nat)
    (b : List WorkItem) (hb : b ∈ split_batch_by_token_limit payload token_limit) :
    (sumTokens b ≤ token_limit ∨ ∃ x, b = [x] ∧ tokensOf x > token_limit) ∧
    (∀ x ∈ b, tokensOf x > token_limit → b = [x]) := by
  have hgood : goodBatch token_limit b :=
    splitGo_good token_limit payload [] 0 (by simp [sumTokens]) (Or.inl (by simp [sumTokens])) b hb
  refine ⟨hgood, ?_⟩
  intro x hx hover
  rcases hgood with hsum | ⟨y, rfl, _⟩
  · exfalso
    have : tokensOf x ≤ sumTokens b := by
      have := List.le_sum_of_mem (List.mem_map_of_mem tokensOf hx)
      simpa [sumTokens] using this
    omega
  · simp at hx
    subst hx
    rfl

/-- Items of the spec's concrete splitting scenario (estimates
`[150000, 100000, 50000]`, limit `200000`). -/
def wit7a : WorkItem := ⟨"a", some 150000⟩

/-- Second item of the concrete splitting scenario. -/
def wit7b : WorkItem := ⟨"b", some 100000⟩

/-- Third item of the concrete splitting scenario. -/
def wit7c : WorkItem := ⟨"c", some 50000⟩

/-- **C7 witness** — the spec's concrete scenario: estimates
`[150000, 100000, 50000]` with limit `200000` give batches
`[[150000], [100000, 50000]]`; C7 applied to the second batch. -/
theorem C7_split_token_bound_witness :
    (sumTokens [wit7b, wit7c] ≤ 200000 ∨
      ∃ x, [wit7b, wit7c] = [x] ∧ tokensOf x > 200000) ∧
    (∀ x ∈ [wit7b, wit7c], tokensOf x > 200000 → [wit7b, wit7c] = [x]) :=
  C7_split_token_bound [wit7a, wit7b, wit7c] 200000 [wit7b, wit7c] (by decide)

theorem split_ne_nil_of_ne_nil (payload : List WorkItem) (token_limit : Nat)
    (h : payload ≠ []) : split_batch_by_token_limit payload token_limit ≠ [] := by
  intro hs
  have hj := splitGo_join token_limit payload [] 0
  unfold split_batch_by_token_limit at hs
  rw [hs] at hj
  exact h (by simpa using hj.symm)

/-- **C10.** For every non-empty input whose first item's token estimate
exceeds the limit, `split_batch_by_token_limit` returns an empty
sub-batch as its first element, and every sub-batch after the first is
non-empty (so an empty sub-batch can appear only in that first
position). -/
theorem C10_split_empty_first_batch (item : WorkItem) (rest : List WorkItem)
    (token_limit : Nat) (hover : tokensOf item > token_limit) :
    (split_batch_by_token_limit (item :: rest) token_limit).head? = some [] ∧
    ∀ b ∈ (split_batch_by_token_limit (item :: rest) token_limit).tail, b ≠ [] := by
  have hstep : split_batch_by_token_limit (item :: rest) token_limit =
      [] :: splitGo token_limit rest [item] (tokensOf item) := by
    simp only [split_batch_by_token_limit, splitGo]
    rw [if_pos (by omega)]
  rw [hstep]
  exact ⟨rfl, fun b hb => splitGo_ne_nil token_limit rest [item] (tokensOf item) (by simp) b hb⟩

/-- **C10 witness** — an oversized first item (estimate 500, limit 100)
followed by a normal item: the first sub-batch is empty and the rest
are not. -/
theorem C10_split_empty_first_batch_witness :
    (split_batch_by_token_limit [⟨"big", some 500⟩, ⟨"small", some 50⟩] 100).head? = some [] ∧
    ∀ b ∈ (split_batch_by_token_limit [⟨"big", some 500⟩, ⟨"small", some 50⟩] 100).tail, b ≠ [] :=
  C10_split_empty_first_batch ⟨"big", some 500⟩ [⟨"small", some 50⟩] 100 (by decide)

/-- The observable outcome of one retry-loop attempt of
`submit_with_backoff` (runner.py lines 29-34): either the pipeline
`generate_file_fn` / `submit_batch_job` / `poll_batch_status` completed
and yielded a batch id together with the polled `status` string, or
some exception was raised along the way (`exn`). -/
inductive AttemptOutcome where
  | ok (batch_id : String) (status : String)
  | exn
deriving DecidableEq, Repr

/-- An attempt outcome that takes the retry path of the source: status
`"cancelled"`, status `"failed"`, or an exception. -/
def retryable : AttemptOutcome → Bool
  | .exn => true
  | .ok _ status => status = "cancelled" || status = "failed"

/-- `delay *= 2; if delay > 3600: delay = 3600` (runner.py lines 41-43
and twins). -/
def nextDelay (delay : Nat) : Nat :=
  if delay * 2 > 3600 then 3600 else delay * 2

/-- Observable result of one run of `submit_with_backoff`: the returned
value (`some batch_id` or `none` for the deferred path), the sequence
of `time.sleep` delays in order, and the number of attempts performed. -/
structure BackoffRun where
  result : Option String
  sleeps : List Nat
  attempts : Nat
deriving DecidableEq, Repr

/-- The retry loop of `submit_with_backoff` (runner.py lines 28-57),
driven by an oracle giving each attempt's outcome.  On `"completed"`
the batch id is returned at once; on `"cancelled"`, `"failed"` or an
exception the loop sleeps `delay`, doubles-and-caps it and moves on;
on any other status the loop moves on without sleeping (the source's
`if/elif` chain has no final else).  `remaining` counts the attempts
left out of `max_retries`. -/
def backoffGo (oracle : Nat → AttemptOutcome) : Nat → Nat → Nat → BackoffRun
  | 0, _, _ => ⟨none, [], 0⟩
  | remaining + 1, attempt, delay =>
    match oracle attempt with
    | .exn =>
      let r := backoffGo oracle remaining (attempt + 1) (nextDelay delay)
      ⟨r.result, delay :: r.sleeps, r.attempts + 1⟩
    | .ok batch_id status =>
      if status = "completed" then ⟨some batch_id, [], 1⟩
      else if status = "cancelled" || status = "failed" then
        let r := backoffGo oracle remaining (attempt + 1) (nextDelay delay)
        ⟨r.result, delay :: r.sleeps, r.attempts + 1⟩
      else
        let r := backoffGo oracle remaining (attempt + 1) delay
        ⟨r.result, r.sleeps, r.attempts + 1⟩

/-- `submit_with_backoff` (runner.py lines 25-62): `delay = 10`,
`max_retries = 20`, attempts numbered from 1.  The deferred-store write
on exhaustion is modelled separately (`submit_with_backoff_persist`). -/
def submit_with_backoff (oracle : Nat → AttemptOutcome) : BackoffRun :=
  backoffGo oracle 20 1 10

/-- The sleep-delay sequence produced by `n` consecutive retryable
attempts starting from delay `d`. -/
def delaysFrom (d : Nat) : Nat → List Nat
  | 0 => []
  | n + 1 => d :: delaysFrom (nextDelay d) n

theorem delaysFrom_length (d n : Nat) : (delaysFrom d n).length = n := by
  induction n generalizing d with
  | zero => rfl
  | succ n ih => simp [delaysFrom, ih]

theorem backoffGo_all_retryable (oracle : Nat → AttemptOutcome) :
    ∀ (remaining attempt delay : Nat),
      (∀ n, attempt ≤ n → n < attempt + remaining → retryable (oracle n) = true) →
      backoffGo oracle remaining attempt delay = ⟨none, delaysFrom delay remaining, remaining⟩ := by
  intro remaining
  induction remaining with
  | zero => intro attempt delay _; rfl
  | succ remaining ih =>
    intro attempt delay h
    have hcur : retryable (oracle attempt) = true := h attempt (Nat.le_refl attempt) (by omega)
    have hrest : ∀ n, attempt + 1 ≤ n → n < attempt + 1 + remaining →
        retryable (oracle n) = true := fun n h1 h2 => h n (by omega) (by omega)
    cases hor : oracle attempt with
    | exn =>
      simp only [backoffGo, hor, ih (attempt + 1) (nextDelay delay) hrest, delaysFrom]
    | ok batch_id status =>
      rw [hor] at hcur
      simp only [retryable, Bool.or_eq_true, decide_eq_true_eq] at hcur
      have hnc : ¬ status = "completed" := by
        rcases hcur with rfl | rfl <;> decide
      have hcond : (decide (status = "cancelled") || decide (status = "failed")) = true := by
        simp only [Bool.or_eq_true, decide_eq_true_eq]
        exact hcur
      simp only [backoffGo, hor, if_neg hnc, if_pos hcond,
        ih (attempt + 1) (nextDelay delay) hrest, delaysFrom]

theorem backoffGo_completed (oracle : Nat → AttemptOutcome) (batch_id : String) :
    ∀ (j remaining attempt delay : Nat), j < remaining →
      (∀ n, attempt ≤ n → n < attempt + j → retryable (oracle n) = true) →
      oracle (attempt + j) = .ok batch_id "completed" →
      backoffGo oracle remaining attempt delay = ⟨some batch_id, delaysFrom delay j, j + 1⟩ := by
  intro j
  induction j with
  | zero =>
    intro remaining attempt delay hlt h hc
    cases remaining with
    | zero => omega
    | succ remaining =>
      simp only [Nat.add_zero] at hc
      simp [backoffGo, hc, delaysFrom]
  | succ j ih =>
    intro remaining attempt delay hlt h hc
    cases remaining with
    | zero => omega
    | succ remaining =>
      have hcur : retryable (oracle attempt) = true := h attempt (Nat.le_refl attempt) (by omega)
      have hrest : ∀ n, attempt + 1 ≤ n → n < attempt + 1 + j → retryable (oracle n) = true :=
        fun n hn1 hn2 => h n (by omega) (by omega)
      have hc' : oracle (attempt + 1 + j) = .ok batch_id "completed" := by
        rw [show attempt + 1 + j = attempt + (j + 1) by omega]
        exact hc
      cases hor : oracle attempt with
      | exn =>
        simp only [backoffGo, hor, ih remaining (attempt + 1) (nextDelay delay) (by omega) hrest hc',
          delaysFrom]
      | ok bid status =>
        rw [hor] at hcur
        simp only [retryable, Bool.or_eq_true, decide_eq_true_eq] at hcur
        have hnc : ¬ status = "completed" := by
          rcases hcur with rfl | rfl <;> decide
        have hcond : (decide (status = "cancelled") || decide (status = "failed")) = true := by
          simp only [Bool.or_eq_true, decide_eq_true_eq]
          exact hcur
        simp only [backoffGo, hor, if_neg hnc, if_pos hcond,
          ih remaining (attempt + 1) (nextDelay delay) (by omega) hrest hc', delaysFrom]

/-- Durable deferred storage: a map from file path to file content.
A file's content is the sequence of work items written to it (the
source writes one `json.dumps(item)` line per item). -/
abbrev DeferredStore := List (String × List WorkItem)

/-- Writing a file in mode `"w"`: the path's previous content, if any,
is replaced wholesale. -/
def store_set (store : DeferredStore) (path : String) (items : List WorkItem) : DeferredStore :=
  (path, items) :: store.filter (fun e => e.1 != path)

/-- Reading back a file's content, `none` if the path was never written. -/
def store_lookup (store : DeferredStore) (path : String) : Option (List WorkItem) :=
  (store.find? (fun e => e.1 == path)).map (fun e => e.2)

/-- `os.path.join(folder, f"failed_{label}.jsonl")` (runner.py line 66). -/
def out_path (folder label : String) : String :=
  folder ++ "/failed_" ++ label ++ ".jsonl"

/-- `save_failed_batch(batch_items, label, folder)` (runner.py lines
64-70): opens `folder/failed_{label}.jsonl` in mode `"w"` and writes
every item.  `os.makedirs(folder, exist_ok=True)` has no observable
effect on the store content. -/
def save_failed_batch (store : DeferredStore) (batch_items : List WorkItem)
    (label : String) (folder : String) : DeferredStore :=
  store_set store (out_path folder label) batch_items

theorem store_lookup_set (store : DeferredStore) (path : String) (items : List WorkItem) :
    store_lookup (store_set store path items) path = some items := by
  simp [store_lookup, store_set, List.find?]

/-- `submit_with_backoff` together with its exhaustion path (runner.py
lines 59-62): when the loop runs out of retries the whole batch is
persisted via `save_failed_batch` under the default folder and `None`
is returned. -/
def submit_with_backoff_persist (oracle : Nat → AttemptOutcome) (batch_items : List WorkItem)
    (label : String) (store : DeferredStore) : BackoffRun × DeferredStore :=
  let run := submit_with_backoff oracle
  match run.result with
  | some _ => (run, store)
  | none => (run, save_failed_batch store batch_items label "data/deferred")

/-- **C1 counterexample.** With a submitter whose every attempt raises,
`submit_with_backoff` sleeps 20 times, not 19: it also sleeps on the
final (20th) attempt, and that last sleep is the capped 3600 s. -/
theorem C1_backoff_sleeps_twenty_counterexample :
    (submit_with_backoff (fun _ => .exn)).sleeps.length = 20 ∧
    (submit_with_backoff (fun _ => .exn)).sleeps.length ≠ 19 ∧
    (submit_with_backoff (fun _ => .exn)).sleeps[19]? = some 3600 := by
  decide

/-- **C1 (amended).** When every attempt's outcome is retryable
(status `"cancelled"`, status `"failed"`, or an exception),
`submit_with_backoff` performs all 20 attempts, sleeps exactly 20 times
— once per attempt, the final attempt included — with delays
`10, 20, 40, …, 2560` followed by eleven times the cap `3600`, then
persists all original items unmodified under the label's deferred file
and returns the deferred outcome (`None`). -/
theorem C1_backoff_exhaustion (oracle : Nat → AttemptOutcome)
    (batch_items : List WorkItem) (label : String) (store : DeferredStore)
    (h : ∀ n, 1 ≤ n → n ≤ 20 → retryable (oracle n) = true) :
    (submit_with_backoff_persist oracle batch_items label store).1.result = none ∧
    (submit_with_backoff_persist oracle batch_items label store).1.sleeps =
      [10, 20, 40, 80, 160, 320, 640, 1280, 2560] ++ List.replicate 11 3600 ∧
    (submit_with_backoff_persist oracle batch_items label store).1.attempts = 20 ∧
    store_lookup (submit_with_backoff_persist oracle batch_items label store).2
      (out_path "data/deferred" label) = some batch_items := by
  have hrun : submit_with_backoff oracle = ⟨none, delaysFrom 10 20, 20⟩ :=
    backoffGo_all_retryable oracle 20 1 10 (fun n h1 h2 => h n h1 (by omega))
  have hdelays : delaysFrom 10 20 =
      [10, 20, 40, 80, 160, 320, 640, 1280, 2560] ++ List.replicate 11 3600 := by decide
  simp only [submit_with_backoff_persist, hrun, hdelays, save_failed_batch]
  exact ⟨trivial, trivial, trivial,
    store_lookup_set store (out_path "data/deferred" label) batch_items⟩

/-- **C1 witness** — the amended C1 at the always-raising submitter
with one concrete item and label `"filter"`, on an empty store. -/
theorem C1_backoff_exhaustion_witness :
    (submit_with_backoff_persist (fun _ => .exn) [⟨"p1", some 100⟩] "filter" []).1.result = none ∧
    (submit_with_backoff_persist (fun _ => .exn) [⟨"p1", some 100⟩] "filter" []).1.sleeps =
      [10, 20, 40, 80, 160, 320, 640, 1280, 2560] ++ List.replicate 11 3600 ∧
    (submit_with_backoff_persist (fun _ => .exn) [⟨"p1", some 100⟩] "filter" []).1.attempts = 20 ∧
    store_lookup (submit_with_backoff_persist (fun _ => .exn) [⟨"p1", some 100⟩] "filter" []).2
      (out_path "data/deferred" "filter") = some [⟨"p1", some 100⟩] :=
  C1_backoff_exhaustion (fun _ => .exn) [⟨"p1", some 100⟩] "filter" []
    (fun _ _ _ => rfl)

/-- **C8.** If every attempt before `n` takes the retry path and the
polled status on attempt `n ≤ 20` is `"completed"`, then
`submit_with_backoff` returns that attempt's batch id immediately:
exactly `n` attempts are made (no further submissions) and exactly
`n - 1` sleeps occur (none after the success). -/
theorem C8_completed_short_circuit (oracle : Nat → AttemptOutcome) (n : Nat) (batch_id : String)
    (h1 : 1 ≤ n) (h2 : n ≤ 20)
    (hprev : ∀ k, 1 ≤ k → k < n → retryable (oracle k) = true)
    (hn : oracle n = .ok batch_id "completed") :
    (submit_with_backoff oracle).result = some batch_id ∧
    (submit_with_backoff oracle).attempts = n ∧
    (submit_with_backoff oracle).sleeps.length = n - 1 := by
  have key := backoffGo_completed oracle batch_id (n - 1) 20 1 10 (by omega)
    (fun k hk1 hk2 => hprev k hk1 (by omega))
    (by rw [show 1 + (n - 1) = n by omega]; exact hn)
  rw [submit_with_backoff, key]
  exact ⟨rfl, by simp; omega, delaysFrom_length _ _⟩

/-- **C8 witness** — attempts 1 and 2 raise, attempt 3 polls
`"completed"`: the job id is returned with exactly 3 attempts and
2 sleeps. -/
theorem C8_completed_short_circuit_witness :
    (submit_with_backoff
        (fun k => if k < 3 then .exn else .ok "job-3" "completed")).result = some "job-3" ∧
    (submit_with_backoff
        (fun k => if k < 3 then .exn else .ok "job-3" "completed")).attempts = 3 ∧
    (submit_with_backoff
        (fun k => if k < 3 then .exn else .ok "job-3" "completed")).sleeps.length = 3 - 1 :=
  C8_completed_short_circuit (fun k => if k < 3 then .exn else .ok "job-3" "completed")
    3 "job-3" (by decide) (by decide)
    (by intro k hk1 hk2; interval_cases k <;> decide) (by decide)

/-- **C5 counterexample.** Persisting items `[a1]` under label
`"filter"` and then items `[b1]` under the same label leaves the store
holding only `[b1]`: the first deferral's item is destroyed, because
`save_failed_batch` opens the label's fixed filename in mode `"w"`. -/
theorem C5_persist_overwrite_counterexample :
    save_failed_batch (save_failed_batch [] [⟨"a1", some 10⟩] "filter" "data/deferred")
        [⟨"b1", some 20⟩] "filter" "data/deferred" =
      [(out_path "data/deferred" "filter", [⟨"b1", some 20⟩])] ∧
    (⟨"a1", some 10⟩ : WorkItem) ∉ [(⟨"b1", some 20⟩ : WorkItem)] := by
  exact ⟨rfl, by decide⟩

/-- **C5 (amended).** Two deferral persists with the same label do not
accumulate: the second write replaces the file's content wholesale, so
afterwards the deferred file for that label holds exactly the items of
the second persist, whatever the first persist wrote. -/
theorem C5_persist_overwrites (store : DeferredStore) (a b : List WorkItem)
    (label folder : String) :
    store_lookup (save_failed_batch (save_failed_batch store a label folder) b label folder)
      (out_path folder label) = some b :=
  store_lookup_set _ _ _

/-- One line of a downloaded result file, seen through its decoding
stages.  The source decodes, in order: the outer JSON envelope
(`json.loads(line)`), the fields `custom_id` and
`response.body.choices[0].message.content`, and the embedded content
(`json.loads(content)` plus access to the payload's fields).
`badOuter`: the outer decode raises; `badFields`: the envelope decodes
but a field lookup raises; `badContent cid`: envelope and fields are
fine but decoding the embedded content raises; `ok cid payload`: the
line parses fully. -/
inductive ResultLine (α : Type) where
  | badOuter
  | badFields
  | badContent (custom_id : String)
  | ok (custom_id : String) (payload : α)
deriving DecidableEq, Repr

/-- A line on which some decoding stage fails. -/
def lineIsBad {α : Type} : ResultLine α → Bool
  | .ok _ _ => false
  | _ => true

/-- A line whose outer envelope or field extraction fails — the stages
the insight loop performs outside its inner `try`. -/
def lineIsOuterBad {α : Type} : ResultLine α → Bool
  | .badOuter => true
  | .badFields => true
  | _ => false

/-- A line whose embedded content fails to decode. -/
def lineIsContentBad {α : Type} : ResultLine α → Bool
  | .badContent _ => true
  | _ => false

/-- The three scores extracted from a filter result's content.  The
source computes with Python floats; rationals stand in for them, which
is exact for every value exercised in this development. -/
structure Scores where
  relevance_score : ℚ
  emotional_intensity : ℚ
  pain_point_clarity : ℚ
deriving DecidableEq, Repr

/-- The `config["scoring"]` weights used by the filter ingestion. -/
structure Weights where
  relevance_weight : ℚ
  emotion_weight : ℚ
  pain_point_weight : ℚ
deriving DecidableEq, Repr

/-- The weighted score of runner.py lines 126-130. -/
def weighted_score (w : Weights) (s : Scores) : ℚ :=
  s.relevance_score * w.relevance_weight +
    s.emotional_intensity * w.emotion_weight +
    s.pain_point_clarity * w.pain_point_weight

/-- Observable state of `get_high_potential_ids_from_filter_results`:
the accumulated id set, the `update_post_filter_scores` calls in order,
and the number of `Error parsing filter result line` logs. -/
structure FilterIngest where
  high_ids : List String
  updates : List (String × Scores)
  parse_errors : Nat
deriving DecidableEq, Repr

/-- `high_ids.add(post_id)` on a Python set, as insert-if-absent. -/
def addId (ids : List String) (id : String) : List String :=
  if id ∈ ids then ids else ids ++ [id]

/-- One iteration of the per-line loop of
`get_high_potential_ids_from_filter_results` (runner.py lines 120-135):
the whole body sits in one `try`, so a failure at any decoding stage
logs one parse error and moves to the next line; a fully parsed line
is kept only when its weighted score reaches the threshold. -/
def filter_ingest_line (w : Weights) (threshold : ℚ) (acc : FilterIngest) :
    ResultLine Scores → FilterIngest
  | .ok cid s =>
    if threshold ≤ weighted_score w s then
      { acc with high_ids := addId acc.high_ids cid, updates := acc.updates ++ [(cid, s)] }
    else acc
  | _ => { acc with parse_errors := acc.parse_errors + 1 }

/-- `get_high_potential_ids_from_filter_results` (runner.py lines
115-136): iterate over every matching result file and every line of
each. -/
def get_high_potential_ids_from_filter_results (w : Weights) (threshold : ℚ)
    (files : List (List (ResultLine Scores))) : FilterIngest :=
  files.foldl (fun acc file => file.foldl (filter_ingest_line w threshold) acc) ⟨[], [], 0⟩

/-- Observable state of the insight-result ingestion of step 5
(runner.py lines 237-252): the `update_post_insight` /
`mark_insight_processed` calls in order, the count of inner
`Error parsing insight` logs, and whether the outer `try` caught an
exception (which ends the loop over all remaining lines and files). -/
structure InsightIngest (α : Type) where
  updates : List (String × α)
  content_errors : Nat
  outer_error : Bool
deriving DecidableEq, Repr

/-- The per-line behaviour of the insight loop: `json.loads(line)` and
the field extractions run outside the inner `try`, so an outer- or
field-level failure raises out of the loop; only a content-level
failure is caught by the inner `try` and skips just that line. -/
def insight_ingest_lines {α : Type} : List (ResultLine α) → InsightIngest α
  | [] => ⟨[], 0, false⟩
  | .badOuter :: _ => ⟨[], 0, true⟩
  | .badFields :: _ => ⟨[], 0, true⟩
  | .badContent _ :: rest =>
    let r := insight_ingest_lines rest
    ⟨r.updates, r.content_errors + 1, r.outer_error⟩
  | .ok cid p :: rest =>
    let r := insight_ingest_lines rest
    ⟨(cid, p) :: r.updates, r.content_errors, r.outer_error⟩

/-- The insight loop over all downloaded files: an outer-level
exception in one file aborts the remaining files as well, since the
single outer `try` wraps the whole nest of loops. -/
def insight_ingest_files {α : Type} : List (List (ResultLine α)) → InsightIngest α
  | [] => ⟨[], 0, false⟩
  | file :: rest =>
    let r := insight_ingest_lines file
    if r.outer_error then r
    else
      let r2 := insight_ingest_files rest
      ⟨r.updates ++ r2.updates, r.content_errors + r2.content_errors, r2.outer_error⟩

/-- The record a fully-parsed filter line contributes (threshold met). -/
def filterLineUpdate (w : Weights) (threshold : ℚ) : ResultLine Scores → Option (String × Scores)
  | .ok cid s => if threshold ≤ weighted_score w s then some (cid, s) else none
  | _ => none

/-- The record a fully-parsed insight line contributes. -/
def insightLineUpdate {α : Type} : ResultLine α → Option (String × α)
  | .ok cid p => some (cid, p)
  | _ => none

theorem filter_foldl_parse_errors (w : Weights) (threshold : ℚ) :
    ∀ (lines : List (ResultLine Scores)) (acc : FilterIngest),
      (lines.foldl (filter_ingest_line w threshold) acc).parse_errors =
        acc.parse_errors + lines.countP lineIsBad := by
  intro lines
  induction lines with
  | nil => intro acc; simp
  | cons l rest ih =>
    intro acc
    cases l with
    | ok cid s =>
      by_cases hθ : threshold ≤ weighted_score w s <;>
        simp [filter_ingest_line, hθ, ih, lineIsBad, List.countP_cons]
    | badOuter => simp [filter_ingest_line, ih, lineIsBad, List.countP_cons]; omega
    | badFields => simp [filter_ingest_line, ih, lineIsBad, List.countP_cons]; omega
    | badContent cid => simp [filter_ingest_line, ih, lineIsBad, List.countP_cons]; omega

theorem filter_foldl_updates (w : Weights) (threshold : ℚ) :
    ∀ (lines : List (ResultLine Scores)) (acc : FilterIngest),
      (lines.foldl (filter_ingest_line w threshold) acc).updates =
        acc.updates ++ lines.filterMap (filterLineUpdate w threshold) := by
  intro lines
  induction lines with
  | nil => intro acc; simp
  | cons l rest ih =>
    intro acc
    cases l with
    | ok cid s =>
      by_cases hθ : threshold ≤ weighted_score w s <;>
        simp [filter_ingest_line, filterLineUpdate, hθ, ih, List.filterMap_cons]
    | badOuter => simp [filter_ingest_line, filterLineUpdate, ih, List.filterMap_cons]
    | badFields => simp [filter_ingest_line, filterLineUpdate, ih, List.filterMap_cons]
    | badContent cid => simp [filter_ingest_line, filterLineUpdate, ih, List.filterMap_cons]

theorem filter_ingest_files_spec (w : Weights) (threshold : ℚ) :
    ∀ (files : List (List (ResultLine Scores))) (acc : FilterIngest),
      (files.foldl (fun a file => file.foldl (filter_ingest_line w threshold) a) acc).parse_errors =
          acc.parse_errors + files.flatten.countP lineIsBad ∧
      (files.foldl (fun a file => file.foldl (filter_ingest_line w threshold) a) acc).updates =
          acc.updates ++ files.flatten.filterMap (filterLineUpdate w threshold) := by
  intro files
  induction files with
  | nil => intro acc; simp
  | cons file rest ih =>
    intro acc
    have h1 := (ih (file.foldl (filter_ingest_line w threshold) acc)).1
    have h2 := (ih (file.foldl (filter_ingest_line w threshold) acc)).2
    constructor
    · simp only [List.foldl_cons, h1, filter_foldl_parse_errors, List.flatten_cons,
        List.countP_append]
      omega
    · simp only [List.foldl_cons, h2, filter_foldl_updates, List.flatten_cons,
        List.filterMap_append, List.append_assoc]

theorem insight_lines_safe {α : Type} :
    ∀ (lines : List (ResultLine α)), (∀ l ∈ lines, lineIsOuterBad l = false) →
      insight_ingest_lines lines =
        ⟨lines.filterMap insightLineUpdate, lines.countP lineIsContentBad, false⟩ := by
  intro lines
  induction lines with
  | nil => intro _; rfl
  | cons l rest ih =>
    intro h
    have hrest : ∀ x ∈ rest, lineIsOuterBad x = false := fun x hx => h x (by simp [hx])
    cases l with
    | badOuter => exact absurd (h .badOuter (by simp)) (by simp [lineIsOuterBad])
    | badFields => exact absurd (h .badFields (by simp)) (by simp [lineIsOuterBad])
    | badContent cid =>
      simp [insight_ingest_lines, ih hrest, insightLineUpdate, lineIsContentBad,
        List.countP_cons, List.filterMap_cons]
    | ok cid p =>
      simp [insight_ingest_lines, ih hrest, insightLineUpdate, lineIsContentBad,
        List.countP_cons, List.filterMap_cons]

theorem insight_files_safe {α : Type} :
    ∀ (files : List (List (ResultLine α))),
      (∀ file ∈ files, ∀ l ∈ file, lineIsOuterBad l = false) →
      insight_ingest_files files =
        ⟨files.flatten.filterMap insightLineUpdate, files.flatten.countP lineIsContentBad,
          false⟩ := by
  intro files
  induction files with
  | nil => intro _; rfl
  | cons file rest ih =>
    intro h
    have hfile := insight_lines_safe file (h file (by simp))
    have hrest := ih (fun f hf l hl => h f (by simp [hf]) l hl)
    simp [insight_ingest_files, hfile, hrest, List.flatten_cons, List.filterMap_append,
      List.countP_append]

theorem insight_lines_abort {α : Type} (suf : List (ResultLine α)) :
    ∀ (pre : List (ResultLine α)), (∀ l ∈ pre, lineIsOuterBad l = false) →
      insight_ingest_lines (pre ++ .badOuter :: suf) =
        ⟨pre.filterMap insightLineUpdate, pre.countP lineIsContentBad, true⟩ := by
  intro pre
  induction pre with
  | nil => intro _; rfl
  | cons l rest ih =>
    intro h
    have hrest : ∀ x ∈ rest, lineIsOuterBad x = false := fun x hx => h x (by simp [hx])
    cases l with
    | badOuter => exact absurd (h .badOuter (by simp)) (by simp [lineIsOuterBad])
    | badFields => exact absurd (h .badFields (by simp)) (by simp [lineIsOuterBad])
    | badContent cid =>
      simp [insight_ingest_lines, ih hrest, insightLineUpdate, lineIsContentBad,
        List.countP_cons, List.filterMap_cons]
    | ok cid p =>
      simp [insight_ingest_lines, ih hrest, insightLineUpdate, lineIsContentBad,
        List.countP_cons, List.filterMap_cons]

/-- **C3 counterexample.** An insight-result file whose first line
fails the outer JSON decode, followed by a perfectly valid line: the
valid line yields no record — the outer failure aborts ingestion of
the remaining lines — whereas the same valid line alone is ingested.
This contradicts the claim that for both ingestion paths a decoding
failure skips only the failing line. -/
theorem C3_insight_abort_counterexample :
    insight_ingest_files [[ResultLine.badOuter, ResultLine.ok "a" "insight-a"]] =
      ({ updates := [], content_errors := 0, outer_error := true } : InsightIngest String) ∧
    insight_ingest_files [[ResultLine.ok "a" "insight-a"]] =
      ({ updates := [("a", "insight-a")], content_errors := 0, outer_error := false } :
        InsightIngest String) :=
  ⟨rfl, rfl⟩

/-- **C3 (amended).** For the filter-result path, every line is
processed independently: a decoding failure at any stage skips only
that line, adding exactly one parse-error signal, and every other line
of every file still contributes its record.  For the insight-result
path this holds only for embedded-content failures: when no line fails
at the outer-envelope or field-extraction stage the ingestion is
likewise per-line, but a line failing at one of those stages aborts
ingestion of all remaining lines and all remaining files (the abort is
caught at the stage boundary, so it does not terminate the run). -/
theorem C3_line_skip (w : Weights) (threshold : ℚ)
    (filterFiles : List (List (ResultLine Scores)))
    {α : Type} (insightFiles : List (List (ResultLine α)))
    (hsafe : ∀ file ∈ insightFiles, ∀ l ∈ file, lineIsOuterBad l = false)
    (pre suf : List (ResultLine α)) (more : List (List (ResultLine α)))
    (hpre : ∀ l ∈ pre, lineIsOuterBad l = false) :
    ((get_high_potential_ids_from_filter_results w threshold filterFiles).parse_errors =
        filterFiles.flatten.countP lineIsBad ∧
      (get_high_potential_ids_from_filter_results w threshold filterFiles).updates =
        filterFiles.flatten.filterMap (filterLineUpdate w threshold)) ∧
    insight_ingest_files insightFiles =
      ⟨insightFiles.flatten.filterMap insightLineUpdate,
        insightFiles.flatten.countP lineIsContentBad, false⟩ ∧
    insight_ingest_files ((pre ++ .badOuter :: suf) :: more) =
      ⟨pre.filterMap insightLineUpdate, pre.countP lineIsContentBad, true⟩ := by
  refine ⟨⟨?_, ?_⟩, insight_files_safe insightFiles hsafe, ?_⟩
  · have := (filter_ingest_files_spec w threshold filterFiles ⟨[], [], 0⟩).1
    simpa [get_high_potential_ids_from_filter_results] using this
  · have := (filter_ingest_files_spec w threshold filterFiles ⟨[], [], 0⟩).2
    simpa [get_high_potential_ids_from_filter_results] using this
  · have habort := insight_lines_abort suf pre hpre
    simp [insight_ingest_files, habort]

/-- Unit weights used in concrete ingestion scenarios. -/
def witWeights : Weights := ⟨1, 1, 1⟩

/-- A fully-parsed score line used in concrete ingestion scenarios. -/
def witScores : Scores := ⟨5, 5, 5⟩

/-- Ten-line filter file of the spec's tolerance scenario: one
malformed line among ten, the rest valid. -/
def witFilterFile : List (ResultLine Scores) :=
  [.ok "p1" witScores, .ok "p2" witScores, .ok "p3" witScores, .ok "p4" witScores,
   .badOuter,
   .ok "p5" witScores, .ok "p6" witScores, .ok "p7" witScores, .ok "p8" witScores,
   .ok "p9" witScores]

/-- **C3 witness** — the spec's tolerance scenario on the filter path
(one malformed among ten lines: nine records, one parse-error signal)
together with a safe insight file and an aborting insight file. -/
theorem C3_line_skip_witness :
    ((get_high_potential_ids_from_filter_results witWeights 7 [witFilterFile]).parse_errors =
        [witFilterFile].flatten.countP lineIsBad ∧
      (get_high_potential_ids_from_filter_results witWeights 7 [witFilterFile]).updates =
        [witFilterFile].flatten.filterMap (filterLineUpdate witWeights 7)) ∧
    insight_ingest_files [[ResultLine.ok "q1" "insight-q1"]] =
      ⟨[[ResultLine.ok "q1" "insight-q1"]].flatten.filterMap insightLineUpdate,
        [[ResultLine.ok "q1" "insight-q1"]].flatten.countP lineIsContentBad, false⟩ ∧
    insight_ingest_files
        (([ResultLine.ok "q2" "insight-q2"] ++
            .badOuter :: [ResultLine.ok "q3" "insight-q3"]) :: [[.ok "q4" "insight-q4"]]) =
      ⟨[ResultLine.ok "q2" "insight-q2"].filterMap insightLineUpdate,
        [ResultLine.ok "q2" "insight-q2"].countP lineIsContentBad, true⟩ :=
  C3_line_skip witWeights 7 [witFilterFile] [[ResultLine.ok "q1" "insight-q1"]]
    (by intro file hf l hl; simp at hf; subst hf; simp at hl; subst hl; rfl)
    [ResultLine.ok "q2" "insight-q2"] [ResultLine.ok "q3" "insight-q3"]
    [[ResultLine.ok "q4" "insight-q4"]]
    (by intro l hl; simp at hl; subst hl; rfl)

/-- A driver-level event of one pipeline stage of `run_daily_pipeline`,
in execution order: the `can_process_batch` check with its verdict, an
`add_estimated_batch_cost` call, a `submit_with_backoff` call, and a
`download_batch_results` call. -/
inductive Ev where
  | check (ok : Bool)
  | recordCost (batch : List WorkItem)
  | submitB (batch : List WorkItem)
  | download (batch_id : String)
deriving DecidableEq, Repr

/-- Is the event a `can_process_batch` call? -/
def isCheck : Ev → Bool
  | .check _ => true
  | _ => false

/-- Is the event a `submit_with_backoff` call? -/
def isSubmit : Ev → Bool
  | .submitB _ => true
  | _ => false

/-- Is the event an `add_estimated_batch_cost` call? -/
def isRecord : Ev → Bool
  | .recordCost _ => true
  | _ => false

/-- Is the event a `download_batch_results` call? -/
def isDownload : Ev → Bool
  | .download _ => true
  | _ => false

/-- The per-sub-batch body of the stage loops (runner.py lines 177-192
and 219-235): record the estimated cost, call `submit_with_backoff`,
and download results only when a batch id came back. -/
def batchEvents (oracle : List WorkItem → Nat → AttemptOutcome) (batch : List WorkItem) :
    List Ev :=
  [Ev.recordCost batch, Ev.submitB batch] ++
    match (submit_with_backoff (oracle batch)).result with
    | some batch_id => [Ev.download batch_id]
    | none => []

/-- One pipeline stage of `run_daily_pipeline` (the filter stage, lines
170-192; the insight stage, lines 209-235, has the same shape): one
`can_process_batch` check for the whole stage — on refusal the run ends
there — then the payload is split and each sub-batch is processed in
order with no further check. -/
def run_stage (can_process : Bool) (payload : List WorkItem) (token_limit : Nat)
    (oracle : List WorkItem → Nat → AttemptOutcome) : List Ev :=
  Ev.check can_process ::
    (if can_process then
      ((split_batch_by_token_limit payload token_limit).map (batchEvents oracle)).flatten
    else [])

theorem batchEvents_countP_isCheck (oracle : List WorkItem → Nat → AttemptOutcome)
    (batch : List WorkItem) : (batchEvents oracle batch).countP isCheck = 0 := by
  unfold batchEvents
  cases (submit_with_backoff (oracle batch)).result <;>
    simp [isCheck, List.countP_cons, List.countP_append]

theorem flatten_batchEvents_countP_isCheck (oracle : List WorkItem → Nat → AttemptOutcome) :
    ∀ (batches : List (List WorkItem)),
      ((batches.map (batchEvents oracle)).flatten).countP isCheck = 0 := by
  intro batches
  induction batches with
  | nil => rfl
  | cons b rest ih =>
    simp [List.countP_append, ih, batchEvents_countP_isCheck]

/-- **C2 counterexample.** A payload splitting into two sub-batches
(two items of 300 tokens each, limit 400): the stage trace holds two
`submit_with_backoff` calls but a single `can_process_batch` check —
the gate runs once for the whole stage, not before each sub-batch's
submission. -/
theorem C2_single_check_counterexample :
    (run_stage true [⟨"a", none⟩, ⟨"b", none⟩] 400 (fun _ _ => .exn)).countP isSubmit = 2 ∧
    (run_stage true [⟨"a", none⟩, ⟨"b", none⟩] 400 (fun _ _ => .exn)).countP isCheck = 1 := by
  decide

/-- **C2 (amended).** In every pipeline stage, `can_process_batch` is
invoked exactly once, as the stage's first event, whatever number of
sub-batches follows; when it refuses, no sub-batch is submitted; the
individual sub-batches are submitted without any further cost-gate
check. -/
theorem C2_check_once_per_stage (can_process : Bool) (payload : List WorkItem)
    (token_limit : Nat) (oracle : List WorkItem → Nat → AttemptOutcome) :
    (run_stage can_process payload token_limit oracle).countP isCheck = 1 ∧
    (run_stage can_process payload token_limit oracle).head? = some (Ev.check can_process) ∧
    (can_process = false →
      (run_stage can_process payload token_limit oracle).countP isSubmit = 0) := by
  refine ⟨?_, rfl, ?_⟩
  · cases can_process with
    | false => simp [run_stage, List.countP_cons, isCheck]
    | true =>
      have h := flatten_batchEvents_countP_isCheck oracle
        (split_batch_by_token_limit payload token_limit)
      unfold run_stage
      rw [if_pos rfl, List.countP_cons, h]
      rfl
  · intro h
    subst h
    simp [run_stage, List.countP_cons, isSubmit]

/-- **C2 witness** — the amended C2 at the two-sub-batch input of the
counterexample. -/
theorem C2_check_once_per_stage_witness :
    (run_stage false [⟨"a", none⟩, ⟨"b", none⟩] 400 (fun _ _ => .exn)).countP isCheck = 1 ∧
    (run_stage false [⟨"a", none⟩, ⟨"b", none⟩] 400 (fun _ _ => .exn)).head? =
      some (Ev.check false) ∧
    (false = false →
      (run_stage false [⟨"a", none⟩, ⟨"b", none⟩] 400 (fun _ _ => .exn)).countP isSubmit = 0) :=
  C2_check_once_per_stage false [⟨"a", none⟩, ⟨"b", none⟩] 400 (fun _ _ => .exn)

/-- **C4 counterexample.** A single sub-batch whose submission exhausts
all retries: the stage trace is exactly check, cost-commit, submission
— the `add_estimated_batch_cost` commit (index 1) precedes the
`submit_with_backoff` call (index 2), and no download ever confirms the
submission as issued, yet the cost was committed. -/
theorem C4_record_before_submit_counterexample :
    run_stage true [⟨"a", none⟩] 400 (fun _ _ => .exn) =
      [Ev.check true, Ev.recordCost [⟨"a", none⟩], Ev.submitB [⟨"a", none⟩]] ∧
    (run_stage true [⟨"a", none⟩] 400 (fun _ _ => .exn)).countP isRecord = 1 ∧
    (run_stage true [⟨"a", none⟩] 400 (fun _ _ => .exn)).countP isDownload = 0 := by
  decide

theorem flatten_batchEvents_record_submit (oracle : List WorkItem → Nat → AttemptOutcome) :
    ∀ (batches : List (List WorkItem)) (b : List WorkItem), b ∈ batches →
      ∃ i, ((batches.map (batchEvents oracle)).flatten)[i]? = some (Ev.recordCost b) ∧
        ((batches.map (batchEvents oracle)).flatten)[i + 1]? = some (Ev.submitB b) := by
  intro batches
  induction batches with
  | nil => intro b hb; simp at hb
  | cons hd rest ih =>
    intro b hb
    rcases List.mem_cons.mp hb with rfl | hb
    · refine ⟨0, ?_, ?_⟩ <;>
        cases hres : (submit_with_backoff (oracle b)).result <;>
          simp [batchEvents, hres]
    · obtain ⟨i, h1, h2⟩ := ih b hb
      refine ⟨(batchEvents oracle hd).length + i, ?_, ?_⟩
      · rw [List.map_cons, List.flatten_cons,
          List.getElem?_append_right (by omega)]
        simpa using h1
      · rw [List.map_cons, List.flatten_cons,
          List.getElem?_append_right (by omega)]
        have : (batchEvents oracle hd).length + i + 1 - (batchEvents oracle hd).length =
            i + 1 := by omega
        rw [this]
        exact h2

/-- **C4 (amended).** For every sub-batch produced by the splitter, the
ledger commit (`add_estimated_batch_cost`) happens immediately BEFORE
that sub-batch's `submit_with_backoff` call: the trace of an admitted
stage contains, for each sub-batch, its cost-commit event directly
followed by its submission event — the cost is committed whether or not
the submission is later confirmed issued. -/
theorem C4_record_immediately_before_submit (payload : List WorkItem) (token_limit : Nat)
    (oracle : List WorkItem → Nat → AttemptOutcome) (b : List WorkItem)
    (hb : b ∈ split_batch_by_token_limit payload token_limit) :
    ∃ i, (run_stage true payload token_limit oracle)[i]? = some (Ev.recordCost b) ∧
      (run_stage true payload token_limit oracle)[i + 1]? = some (Ev.submitB b) := by
  obtain ⟨i, h1, h2⟩ := flatten_batchEvents_record_submit oracle
    (split_batch_by_token_limit payload token_limit) b hb
  exact ⟨i + 1, by simpa [run_stage] using h1, by simpa [run_stage] using h2⟩

/-- **C4 witness** — the amended C4 at a single-sub-batch payload. -/
theorem C4_record_immediately_before_submit_witness :
    ∃ i, (run_stage true [⟨"a", none⟩] 400 (fun _ _ => .exn))[i]? =
        some (Ev.recordCost [⟨"a", none⟩]) ∧
      (run_stage true [⟨"a", none⟩] 400 (fun _ _ => .exn))[i + 1]? =
        some (Ev.submitB [⟨"a", none⟩]) :=
  C4_record_immediately_before_submit [⟨"a", none⟩] 400 (fun _ _ => .exn)
    [⟨"a", none⟩] (by decide)

/-- Faults of the collaborator calls that the per-sub-batch code of
`run_daily_pipeline` performs OUTSIDE any `try`: the deferred-store
write (`save_failed_batch`, called at runner.py line 61 after the retry
loop) and the result download (`download_batch_results`, runner.py
lines 192 and 234). -/
structure FaultEnv where
  persist_raises : Bool
  download_raises : Bool
deriving DecidableEq, Repr

/-- Driver-side processing of one sub-batch (runner.py lines 181-192):
exceptions during an attempt's generate/submit/poll are absorbed inside
`submit_with_backoff`'s `try`; but on exhaustion `save_failed_batch`
runs outside that `try`, and on success `download_batch_results` runs
in the loop body with no `try` at all, so either's exception escapes. -/
def process_batch_exc (env : FaultEnv) (oracle : Nat → AttemptOutcome) : Except String Unit :=
  match (submit_with_backoff oracle).result with
  | some _ => if env.download_raises then .error "download_batch_results" else .ok ()
  | none => if env.persist_raises then .error "save_failed_batch" else .ok ()

/-- A pipeline stage's sub-batch loop with exception propagation: the
loop body has no handler, so the first escaping exception aborts the
whole run. -/
def run_stage_exc (env : FaultEnv) (can_process : Bool) (payload : List WorkItem)
    (token_limit : Nat) (oracle : List WorkItem → Nat → AttemptOutcome) :
    Except String Unit :=
  if can_process then
    (split_batch_by_token_limit payload token_limit).foldlM
      (fun _ b => process_batch_exc env (oracle b)) ()
  else .ok ()

/-- **C9 counterexample.** One sub-batch that exhausts its retries
while the deferred-store write fails: the exception from
`save_failed_batch` propagates out of the sub-batch's processing and
terminates the pipeline run — yet it is an exception arising while
processing a single sub-batch (the deferred-store persistence step). -/
theorem C9_persist_failure_counterexample :
    run_stage_exc ⟨true, false⟩ true [⟨"a", none⟩] 400 (fun _ _ => .exn) =
      .error "save_failed_batch" := rfl

/-- **C9 (amended).** Exceptions during an attempt's
generate/submit/poll never escape a sub-batch's processing: when the
deferred-store write and the result download work, every stage run
completes for every submitter behaviour.  But the deferred-store
persistence step itself is unprotected: when `save_failed_batch` raises
and a retry-exhausted sub-batch exists, its exception propagates and
terminates the run. -/
theorem C9_exception_containment :
    (∀ (env : FaultEnv) (can_process : Bool) (payload : List WorkItem) (token_limit : Nat)
        (oracle : List WorkItem → Nat → AttemptOutcome),
      env.persist_raises = false → env.download_raises = false →
      run_stage_exc env can_process payload token_limit oracle = .ok ()) ∧
    (∀ (payload : List WorkItem) (token_limit : Nat), payload ≠ [] →
      run_stage_exc ⟨true, false⟩ true payload token_limit (fun _ _ => .exn) =
        .error "save_failed_batch") := by
  constructor
  · intro env can_process payload token_limit oracle hp hd
    have hproc : ∀ b, process_batch_exc env (oracle b) = .ok () := by
      intro b
      unfold process_batch_exc
      cases (submit_with_backoff (oracle b)).result <;> simp [hp, hd]
    unfold run_stage_exc
    cases can_process with
    | false => simp
    | true =>
      rw [if_pos rfl]
      generalize split_batch_by_token_limit payload token_limit = batches
      induction batches with
      | nil => rfl
      | cons b rest ih => rw [List.foldlM_cons, hproc b]; exact ih
  · intro payload token_limit hne
    obtain ⟨b1, rest, hsplit⟩ :
        ∃ b1 rest, split_batch_by_token_limit payload token_limit = b1 :: rest := by
      cases hs : split_batch_by_token_limit payload token_limit with
      | nil => exact absurd hs (split_ne_nil_of_ne_nil payload token_limit hne)
      | cons b1 rest => exact ⟨b1, rest, rfl⟩
    unfold run_stage_exc
    rw [if_pos rfl, hsplit, List.foldlM_cons]
    rfl

/-- **C9 witness** — both parts of the amended C9 at a one-item
payload: the fault-free run completes, the persist-failing run ends in
the `save_failed_batch` error. -/
theorem C9_exception_containment_witness :
    run_stage_exc ⟨false, false⟩ true [⟨"a", none⟩] 400 (fun _ _ => .exn) = .ok () ∧
    run_stage_exc ⟨true, false⟩ true [⟨"a", none⟩] 400 (fun _ _ => .exn) =
      .error "save_failed_batch" :=
  ⟨C9_exception_containment.1 ⟨false, false⟩ true [⟨"a", none⟩] 400 (fun _ _ => .exn) rfl rfl,
    C9_exception_containment.2 [⟨"a", none⟩] 400 (by decide)⟩
